import Mathlib

/-!
Verification development for the WorkflowMax → Dropbox folder-sync service
(`index.js`).  The JavaScript source is shallowly embedded: pure string
manipulation becomes functions on `List Char` / `String`, the network calls
of each operation become explicit oracle arguments (`Except`-valued results
of the HTTP requests), and the polling cycle becomes a step function on an
explicit checkpoint state.  Timestamps are integers (milliseconds, as
returned by `Date.now()`).
-/

namespace WfxDropbox

/-! ### JavaScript whitespace (the `\s` class and `trim`) -/

/-- The whitespace characters recognised by the JavaScript `\s` regex class
and by `String.prototype.trim` (ASCII part plus the common Unicode space
code points). -/
def isJsSpace (c : Char) : Bool :=
  c == ' ' || c == '\t' || c == '\n' || c == '\r' ||
  c.toNat == 11 || c.toNat == 12 || c.toNat == 0xa0 ||
  c.toNat == 0x2028 || c.toNat == 0x2029 || c.toNat == 0xfeff

/-! ### `formatJobName` (index.js lines 239–261)

The five sequential `String.replace(/entity/g, ch)` calls are embedded as
five left-to-right single-pattern scans.  Each scan consumes the pattern
and never rescans the emitted replacement, exactly like a global `replace`
with a fixed pattern. -/

/-- `jobName.replace(/&amp;/g, '&')`. -/
def decodeAmp : List Char → List Char
  | [] => []
  | '&' :: 'a' :: 'm' :: 'p' :: ';' :: rest => '&' :: decodeAmp rest
  | c :: rest => c :: decodeAmp rest

/-- `.replace(/&lt;/g, '<')`. -/
def decodeLt : List Char → List Char
  | [] => []
  | '&' :: 'l' :: 't' :: ';' :: rest => '<' :: decodeLt rest
  | c :: rest => c :: decodeLt rest

/-- `.replace(/&gt;/g, '>')`. -/
def decodeGt : List Char → List Char
  | [] => []
  | '&' :: 'g' :: 't' :: ';' :: rest => '>' :: decodeGt rest
  | c :: rest => c :: decodeGt rest

/-- `.replace(/&quot;/g, '"')`. -/
def decodeQuot : List Char → List Char
  | [] => []
  | '&' :: 'q' :: 'u' :: 'o' :: 't' :: ';' :: rest => '"' :: decodeQuot rest
  | c :: rest => c :: decodeQuot rest

/-- `.replace(/&#39;/g, "'")` (the replacement is the apostrophe,
code point 39). -/
def decodeApos : List Char → List Char
  | [] => []
  | '&' :: '#' :: '3' :: '9' :: ';' :: rest => Char.ofNat 39 :: decodeApos rest
  | c :: rest => c :: decodeApos rest

/-- Attempt to match the regex `\s*\([^)]*\)` at the head of the list,
returning the remainder after the match.  `\s*` is greedy whitespace, then
a literal `(`, then any run of non-`)` characters, then `)`.  If no closing
parenthesis follows, there is no match at this position. -/
def parenScan (l : List Char) : Option (List Char) :=
  match l.dropWhile isJsSpace with
  | '(' :: rest =>
    match rest.dropWhile (fun c => c != ')') with
    | ')' :: rest2 => some rest2
    | _ => none
  | _ => none

/-- Fuelled left-to-right global replacement of `\s*\([^)]*\)` by the empty
string (`.replace(/\s*\([^)]*\)/g, '')`).  Every recursive call strictly
shrinks the list, so fuel equal to the initial length is always enough;
the fuel only makes the recursion structural. -/
def stripParensF : Nat → List Char → List Char
  | 0, l => l
  | _ + 1, [] => []
  | fuel + 1, c :: rest =>
    match parenScan (c :: rest) with
    | some rest2 => stripParensF fuel rest2
    | none => c :: stripParensF fuel rest

/-- `.replace(/\s*\([^)]*\)/g, '')`: strip every parenthesized group and
the whitespace run immediately before it. -/
def stripParens (l : List Char) : List Char := stripParensF l.length l

/-- `.replace(/_/g, ' - ')`. -/
def replaceUnderscores : List Char → List Char
  | [] => []
  | '_' :: rest => ' ' :: '-' :: ' ' :: replaceUnderscores rest
  | c :: rest => c :: replaceUnderscores rest

/-- `.replace(/\s+/g, ' ')`: every maximal whitespace run becomes a single
space.  A space is emitted at the last character of each run. -/
def collapseWs : List Char → List Char
  | [] => []
  | [c] => if isJsSpace c then [' '] else [c]
  | c :: d :: rest =>
    if isJsSpace c && isJsSpace d then collapseWs (d :: rest)
    else (if isJsSpace c then ' ' else c) :: collapseWs (d :: rest)

/-- `.trim()`: drop whitespace from both ends. -/
def jsTrim (l : List Char) : List Char :=
  ((l.dropWhile isJsSpace).reverse.dropWhile isJsSpace).reverse

/-- The full normalisation pipeline applied to `jobName` inside
`formatJobName` (index.js lines 241–257): decode the five entities in the
source's order, strip parenthesized groups, replace underscores, uppercase,
collapse whitespace, trim. -/
def normalizeTitle (jobName : String) : String :=
  let a := decodeApos (decodeQuot (decodeGt (decodeLt (decodeAmp jobName.toList))))
  let b := stripParens a
  let c := replaceUnderscores b
  let d := c.map Char.toUpper
  (jsTrim (collapseWs d)).asString

/-- `formatJobName(jobNo, jobName)` (index.js line 260):
`` `${jobNo} - ${formattedName}` ``. -/
def formatJobName (jobNo jobName : String) : String :=
  jobNo ++ " - " ++ normalizeTitle jobName

/-! Spec-side variant for the refinement comparison in C3: the claim's
step (2) reads "strip every parenthesized substring including its
parentheses", i.e. remove exactly the `(...)` occurrences, with no mention
of the preceding whitespace that the source's `\s*` prefix also removes.
Only the paren-stripping step differs; all other steps name the same
operations as the source and are shared. -/

/-- Match `\([^)]*\)` (no leading `\s*`) at the head of the list. -/
def parenScanSpec (l : List Char) : Option (List Char) :=
  match l with
  | '(' :: rest =>
    match rest.dropWhile (fun c => c != ')') with
    | ')' :: rest2 => some rest2
    | _ => none
  | _ => none

/-- Fuelled global replacement of `\([^)]*\)` by the empty string. -/
def stripParensSpecF : Nat → List Char → List Char
  | 0, l => l
  | _ + 1, [] => []
  | fuel + 1, c :: rest =>
    match parenScanSpec (c :: rest) with
    | some rest2 => stripParensSpecF fuel rest2
    | none => c :: stripParensSpecF fuel rest

/-- Modelled from the spec wording of C3 step (2): strip exactly the
parenthesized substrings, leaving surrounding whitespace in place. -/
def stripParensSpec (l : List Char) : List Char := stripParensSpecF l.length l

/-- The formatter as literally described by the claim's ordered steps,
differing from the source only in step (2). -/
def formatNameSpec (jobNo jobName : String) : String :=
  let a := decodeApos (decodeQuot (decodeGt (decodeLt (decodeAmp jobName.toList))))
  let b := stripParensSpec a
  let c := replaceUnderscores b
  let d := c.map Char.toUpper
  jobNo ++ " - " ++ (jsTrim (collapseWs d)).asString

/-! ### `selectDestinationFolder` (index.js lines 105–144)

`global.folderIds` is embedded as a record with one optional path per
destination category; a `none` field models a category whose folder was
never resolved (`folderPath` falsy in the source). -/

/-- The three destination categories of `global.folderIds`:
`'ISA PROJECT JOBS (2-5)'`, `'ISA SURVEY PTY LTD (7-8)'`,
`'ISA SURVEYORS PTY LTD (6 or 9)'`. -/
structure FolderIds where
  projectJobs : Option String
  surveyPty : Option String
  surveyors : Option String
deriving DecidableEq

/-- `selectDestinationFolder(jobNo)`: route on the first character; an
empty identifier is falsy and returns `null`; a missing mapping entry also
returns `null`. -/
def selectDestinationFolder (fids : FolderIds) (jobNo : String) : Option String :=
  match jobNo.toList with
  | [] => none
  | c :: _ =>
    if c = '2' ∨ c = '3' ∨ c = '4' ∨ c = '5' then fids.projectJobs
    else if c = '7' ∨ c = '8' then fids.surveyPty
    else if c = '6' ∨ c = '9' then fids.surveyors
    else none

/-! ### `checkFolderExists` (index.js lines 264–295) -/

/-- The shape of a Dropbox error as inspected by `checkFolderExists`:
`error.response?.data?.error?.['.tag']` and
`error.response?.data?.error?.path?.['.tag']` (absent fields are `none`). -/
structure PathErr where
  tag : Option String
  pathTag : Option String
deriving DecidableEq

/-- `checkFolderExists(parentPath, folderName)` as a function of the
metadata-lookup outcome: a successful lookup returns `true`; a
path/not_found error returns `false`; every other error also returns
`false` (the source's final `return false`). -/
def checkFolderExists (res : Except PathErr Unit) : Bool :=
  match res with
  | .ok _ => true
  | .error e =>
    if e.tag == some "path" && e.pathTag == some "not_found" then false
    else false

/-! ### `checkExistingJobFolders` and the suffix screen
(index.js lines 423–432 and 456–487) -/

/-- A top-level entry returned by `files/list_folder`:
`entry['.tag'] === 'folder'` and `entry.name`. -/
structure DbxEntry where
  isFolder : Bool
  name : String
deriving DecidableEq

/-- The test of the regex `` new RegExp(`^${base}\s*-\s*`, 'i') `` on a
folder name, for a `base` free of regex metacharacters (job identifiers
are digit strings): the name starts with `base` case-insensitively,
followed by optional whitespace and a hyphen (the trailing `\s*` always
matches). -/
def basePatternTest (base name : String) : Bool :=
  let bl := base.toList.map Char.toLower
  (bl.isPrefixOf (name.toList.map Char.toLower)) &&
    (match (name.toList.drop bl.length).dropWhile isJsSpace with
     | '-' :: _ => true
     | _ => false)

/-- The characters before the first `'_'` (all of them when there is
none). -/
def baseOfAux : List Char → List Char
  | [] => []
  | '_' :: _ => []
  | c :: rest => c :: baseOfAux rest

/-- `jobNo.split('_')[0]`: the part of the identifier before the first
underscore. -/
def baseOf (jobNo : String) : String := (baseOfAux jobNo.toList).asString

/-- `checkExistingJobFolders(parentPath, pattern)` as a function of the
`list_folder` outcome: the names of the folder entries matching the
pattern; any API error yields `[]`. -/
def checkExistingJobFolders (res : Except Unit (List DbxEntry)) (base : String) :
    List String :=
  match res with
  | .ok entries =>
    (entries.filter (fun e => e.isFolder && basePatternTest base e.name)).map
      (fun e => e.name)
  | .error _ => []

/-- The per-item suffix screen (index.js lines 424–432): the sibling
listing is performed only when the identifier contains `'_'`; `none` means
the listing was never requested. -/
def suffixScreen (jobNo : String) (sib : Except Unit (List DbxEntry)) :
    Option (List String) :=
  if jobNo.toList.contains '_' then
    some (checkExistingJobFolders sib (baseOf jobNo))
  else none

/-- Whether the suffix screen skips the item
(`existingFolders.length > 0`). -/
def screenSkips (jobNo : String) (sib : Except Unit (List DbxEntry)) : Bool :=
  match suffixScreen jobNo sib with
  | some l => !l.isEmpty
  | none => false

/-! ### `createFolder` and `createFolderFromTemplate`
(index.js lines 490–593) -/

/-- A Dropbox API error as inspected by the provisioner:
`error.response?.data?.error_summary` (absent on e.g. network errors). -/
structure ApiError where
  summary : Option String
deriving DecidableEq

/-- `s.includes(pat)`: `pat` occurs as a contiguous substring of `s`
(character lists). -/
def listHasInfix (pat : List Char) : List Char → Bool
  | [] => pat.isEmpty
  | c :: rest => pat.isPrefixOf (c :: rest) || listHasInfix pat rest

/-- `error.response?.data?.error_summary?.includes(pat)` — `false` when the
summary is absent. -/
def summaryHas (e : ApiError) (pat : String) : Bool :=
  match e.summary with
  | some s => listHasInfix pat.toList s.toList
  | none => false

/-- The `metadata` object of a successful copy/create response. -/
structure FolderMeta where
  name : String
  path_display : String
deriving DecidableEq

/-- A successful (HTTP 2xx) copy/create response body; `metadata = none`
models the source's defensive "unexpected response format" branch. -/
structure ApiResp where
  metadata : Option FolderMeta
deriving DecidableEq

/-- `createFolder(parentPath, folderName)` as a function of the
`create_folder_v2` outcome.  `some` is the truthy return (materialized),
`none` the source's `return null` (failed). -/
def createFolder (parentPath folderName : String)
    (res : Except ApiError ApiResp) : Option FolderMeta :=
  match res with
  | .ok r =>
    match r.metadata with
    | some m => some m
    | none => none
  | .error e =>
    if summaryHas e "path/conflict/folder" then
      some { name := folderName, path_display := parentPath ++ "/" ++ folderName }
    else none

/-- `createFolderFromTemplate(parentPath, folderName)` as a function of
the `copy_v2` outcome and of the `create_folder_v2` outcome used when the
code falls back.  The second component records the path of the
`create_folder_v2` attempt, `none` when `createFolder` was never called. -/
def createFolderFromTemplate (parentPath folderName : String)
    (copyRes : Except ApiError ApiResp) (createRes : Except ApiError ApiResp) :
    Option FolderMeta × Option String :=
  match copyRes with
  | .ok r =>
    match r.metadata with
    | some m => (some m, none)
    | none =>
      (createFolder parentPath folderName createRes,
       some (parentPath ++ "/" ++ folderName))
  | .error e =>
    if summaryHas e "path/conflict" then
      (some { name := folderName, path_display := parentPath ++ "/" ++ folderName },
       none)
    else
      (createFolder parentPath folderName createRes,
       some (parentPath ++ "/" ++ folderName))

/-! ### Token manager (index.js lines 54–102) -/

/-- The persisted credential file `wfx_tokens.json`.  Absent JSON fields
are `none`; arithmetic on an absent field yields `NaN` in the source,
embedded as the `none` case of `tokenExpiryOf`. -/
structure Credential where
  access_token : Option String
  refresh_token : Option String
  expires_in : Option Int
  obtained_at : Option Int
deriving DecidableEq

/-- The body of a successful token-endpoint response. -/
structure RefreshData where
  access_token : String
  refresh_token : String
  expires_in : Int
deriving DecidableEq

/-- `writeTokens(tokens)` (index.js lines 62–65): stamps
`obtained_at = Date.now()` and persists. -/
def writeTokens (now : Int) (d : RefreshData) : Credential :=
  { access_token := some d.access_token
    refresh_token := some d.refresh_token
    expires_in := some d.expires_in
    obtained_at := some now }

/-- `tokens.obtained_at + tokens.expires_in * 1000 - 60000`; `none` models
the `NaN` produced when a field is absent. -/
def tokenExpiryOf (c : Credential) : Option Int :=
  match c.obtained_at, c.expires_in with
  | some o, some e => some (o + e * 1000 - 60000)
  | _, _ => none

/-- The source's refresh condition
`!tokens.access_token || tokenExpiry < now` (an absent or empty token is
falsy; `NaN < now` is `false`). -/
def needsRefreshB (now : Int) (c : Credential) : Bool :=
  match c.access_token with
  | none => true
  | some tok =>
    if tok = "" then true
    else
      match tokenExpiryOf c with
      | none => false
      | some te => decide (te < now)

/-- Result of `getValidAccessToken`: the cached token, a fresh token
together with the credential written to disk, or the rethrown refresh
failure. -/
inductive TokenOutcome where
  | cached (tok : String)
  | refreshed (tok : String) (saved : Credential)
  | authError
deriving DecidableEq

/-- `getValidAccessToken()` (index.js lines 68–102) as a function of the
current time and of the token-endpoint outcome. -/
def getValidAccessToken (now : Int) (c : Credential)
    (exchange : Except Unit RefreshData) : TokenOutcome :=
  if needsRefreshB now c then
    match exchange with
    | .ok d => .refreshed d.access_token (writeTokens now d)
    | .error _ => .authError
  else .cached (c.access_token.getD "")

/-! ### Startup folder resolution (index.js lines 651–679) -/

/-- A top-level entry of the namespace-root listing:
`entry.name`, `entry.path_lower`, `entry.id`. -/
structure RootEntry where
  name : String
  path_lower : Option String
  id : String
deriving DecidableEq

/-- `entry.path_lower || entry.id` (an absent or empty `path_lower` is
falsy). -/
def entryPath (e : RootEntry) : String :=
  match e.path_lower with
  | some s => if s = "" then e.id else s
  | none => e.id

/-- `entry.name.includes(frag)` (case-sensitive substring). -/
def hasFragment (frag : String) (e : RootEntry) : Bool :=
  listHasInfix frag.toList e.name.toList

/-- The startup mapping step: `find` each of the three required name
fragments among the top-level entries; `global.folderIds` is assigned only
inside `if (isaProjectJobs && isaSurvey && isaSurveyors)`, so the result is
`none` (the global stays undefined) unless all three fragments are found. -/
def resolveFolderIds (entries : List RootEntry) : Option FolderIds :=
  let isaProjectJobs := entries.find? (hasFragment "ISA PROJECT JOBS")
  let isaSurvey := entries.find? (hasFragment "ISA SURVEY PTY LTD")
  let isaSurveyors := entries.find? (hasFragment "ISA SURVEYORS PTY LTD")
  match isaProjectJobs, isaSurvey, isaSurveyors with
  | some a, some b, some c =>
    some { projectJobs := some (entryPath a)
           surveyPty := some (entryPath b)
           surveyors := some (entryPath c) }
  | _, _, _ => none

/-! ### The polling cycle (index.js lines 298–453)

The scheduled callback becomes a step function on the checkpoint state.
Each network interaction is an oracle in the environment; a JavaScript
exception is a distinguished result that the cycle-level `catch`
swallows. -/

/-- A job object produced by parsing the fetch response; any field may be
absent. -/
structure Job where
  ID : Option String
  Name : Option String
  DateCreatedUtc : Option String
  DateCreated : Option String
deriving DecidableEq

/-- The storage-service responses consumed while processing one item. -/
structure ItemOracle where
  existsRes : Except PathErr Unit
  siblings : Except Unit (List DbxEntry)
  copyRes : Except ApiError ApiResp
  createRes : Except ApiError ApiResp

/-- How the per-item body of the `for` loop ends: `thrown` is an uncaught
JavaScript exception (propagating to the cycle-level `catch`); the `skip`
results are the `continue` statements; `provisioned` reaches the
`createFolderFromTemplate` call. -/
inductive ItemResult where
  | thrown
  | dupSkip
  | routeSkip
  | existsSkip
  | suffixSkip
  | provisioned (ok : Bool)
deriving DecidableEq

/-- `job.DateCreatedUtc || job.DateCreated` (absent or empty string is
falsy). -/
def dateArg (job : Job) : Option String :=
  match job.DateCreatedUtc with
  | some s => if s = "" then job.DateCreated else some s
  | none => job.DateCreated

/-- Whether `new Date(job.DateCreatedUtc || job.DateCreated).toISOString()`
succeeds: the argument must be present and parse to a valid date
(`parseDate` is the embedding of the host's date parser). -/
def dateOk (parseDate : String → Option Int) (job : Job) : Bool :=
  match dateArg job with
  | some s => (parseDate s).isSome
  | none => false

/-- One iteration of the `for (let job of jobs)` body (index.js lines
388–442), with `processed` the `processedJobs` set so far.  Statement
order follows the source: reading `job.ID` never throws, but
`jobNo.split('_')` throws when `ID` is absent; the `has`/`add` pair on the
set; `created.toISOString()` throws on an invalid date; routing; name
formatting (throws when `Name` is absent); the exact-existence check; the
suffix screen; provisioning. -/
def processItem (fids : FolderIds) (parseDate : String → Option Int)
    (processed : List String) (job : Job) (o : ItemOracle) :
    ItemResult × List String :=
  match job.ID with
  | none => (.thrown, processed)
  | some jobNo =>
    if processed.contains jobNo then (.dupSkip, processed)
    else
      let processed2 := jobNo :: processed
      if !dateOk parseDate job then (.thrown, processed2)
      else
        match selectDestinationFolder fids jobNo with
        | none => (.routeSkip, processed2)
        | some destFolderPath =>
          match job.Name with
          | none => (.thrown, processed2)
          | some jobName =>
            let jobFolderName := formatJobName jobNo jobName
            if checkFolderExists o.existsRes then (.existsSkip, processed2)
            else if screenSkips jobNo o.siblings then (.suffixSkip, processed2)
            else
              let res := createFolderFromTemplate destFolderPath jobFolderName
                o.copyRes o.createRes
              (.provisioned res.1.isSome, processed2)

/-- The whole `for` loop: `false` when an item threw (the loop aborts and
the exception reaches the cycle-level `catch`), `true` when every item was
handled. -/
def processJobs (fids : FolderIds) (parseDate : String → Option Int)
    (oracleAt : Nat → ItemOracle) :
    List Job → Nat → List String → Bool
  | [], _, _ => true
  | job :: rest, i, processed =>
    let r := processItem fids parseDate processed job (oracleAt i)
    if r.1 = .thrown then false
    else processJobs fids parseDate oracleAt rest (i + 1) r.2

/-- The in-memory checkpoint (`lastChecked`, milliseconds). -/
structure CycleState where
  lastChecked : Int
deriving DecidableEq

/-- How a polling cycle ends: skipped at a precondition, aborted by the
cycle-level `catch` (the process keeps running), or completed with the
fetch window `[windowLo, windowHi)` that was used. -/
inductive CycleOutcome where
  | skippedNoFolders
  | skippedNoMember
  | fatal
  | completed (windowLo windowHi : Int)
deriving DecidableEq

/-- `Object.keys(global.folderIds).length === 0` for a mapping object in
which only the resolved categories are present. -/
def folderIdsEmpty (m : FolderIds) : Bool :=
  m.projectJobs.isNone && m.surveyPty.isNone && m.surveyors.isNone

/-- The environment of one cycle: the ambient globals, the clock readings
(`tCred` at the token check, `tFetch` at `const now = new Date()`, `tEnd`
at the final `new Date()`), and the oracles for every outbound call.
Fetching and parsing are bundled: `fetchRes` is the parsed job list, or
the fetch-level error (a parse failure yields `.ok []` in the source and
is covered by that case). -/
structure CycleEnv where
  folderIds : Option FolderIds
  teamMemberId : Option String
  cred : Credential
  exchange : Except Unit RefreshData
  fetchRes : Except Unit (List Job)
  oracleAt : Nat → ItemOracle
  parseDate : String → Option Int
  tCred : Int
  tFetch : Int
  tEnd : Int

/-- One run of the scheduled callback (index.js lines 298–453). -/
def runCycle (st : CycleState) (env : CycleEnv) : CycleState × CycleOutcome :=
  match env.folderIds with
  | none => (st, .skippedNoFolders)
  | some fids =>
    if folderIdsEmpty fids then (st, .skippedNoFolders)
    else
      match env.teamMemberId with
      | none => (st, .skippedNoMember)
      | some _ =>
        match getValidAccessToken env.tCred env.cred env.exchange with
        | .authError => (st, .fatal)
        | _ =>
          match env.fetchRes with
          | .error _ => (st, .fatal)
          | .ok jobs =>
            if processJobs fids env.parseDate env.oracleAt jobs 0 [] then
              ({ lastChecked := env.tEnd }, .completed st.lastChecked env.tFetch)
            else (st, .fatal)

/-- Iterated cycles. -/
def runCycles : CycleState → List CycleEnv → CycleState
  | st, [] => st
  | st, e :: es => runCycles (runCycle st e).1 es

/-- Every cycle of the sequence, run from the evolving state, completes
without a fetch-level fatal error. -/
def AllCompleted : CycleState → List CycleEnv → Prop
  | _, [] => True
  | st, e :: es =>
    (∃ lo hi, (runCycle st e).2 = .completed lo hi) ∧
      AllCompleted (runCycle st e).1 es

/-- The clock readings advance across the sequence: each cycle's fetch
time lies strictly after the incoming checkpoint, and its final reading is
not before its fetch reading. -/
def Clocked : CycleState → List CycleEnv → Prop
  | _, [] => True
  | st, e :: es =>
    st.lastChecked < e.tFetch ∧ e.tFetch ≤ e.tEnd ∧
      Clocked { lastChecked := e.tEnd } es

/-- Both cycle preconditions hold: a non-empty destination mapping and a
resolved team-member identity. -/
def precondPass (env : CycleEnv) : Bool :=
  (match env.folderIds with
   | some fids => !folderIdsEmpty fids
   | none => false) && env.teamMemberId.isSome

/-! ### Concrete fixtures used by the witnesses and counterexamples -/

/-- A fully resolved destination mapping. -/
def fidsAll : FolderIds :=
  { projectJobs := some "/isa project jobs (2-5)"
    surveyPty := some "/isa survey pty ltd (7-8)"
    surveyors := some "/isa surveyors pty ltd (6 or 9)" }

/-- A fresh valid credential: expiry `0 + 3600·1000 − 60000`, far after the
`tCred = 0` used below. -/
def credFresh : Credential :=
  { access_token := some "tok"
    refresh_token := some "rtok"
    expires_in := some 3600
    obtained_at := some 0 }

/-- Item oracle for a folder that does not exist yet: the metadata lookup
answers not_found, the sibling listing is empty, copy and create succeed. -/
def oracleFresh : ItemOracle :=
  { existsRes := .error { tag := some "path", pathTag := some "not_found" }
    siblings := .ok []
    copyRes := .ok { metadata := some { name := "n", path_display := "p" } }
    createRes := .ok { metadata := some { name := "n", path_display := "p" } } }

/-- A cycle environment in which both preconditions hold, the credential
is cached, and the fetch succeeds with the given batch. -/
def envOk (jobs : List Job) (tf te : Int) : CycleEnv :=
  { folderIds := some fidsAll
    teamMemberId := some "dbmid:m"
    cred := credFresh
    exchange := .ok { access_token := "fresh", refresh_token := "r2", expires_in := 3600 }
    fetchRes := .ok jobs
    oracleAt := fun _ => oracleFresh
    parseDate := fun _ => some 0
    tCred := 0
    tFetch := tf
    tEnd := te }

/-- A job with an absent `Name` whose identifier starts with `'1'` and so
routes nowhere. -/
def jobNameless : Job :=
  { ID := some "1234"
    Name := none
    DateCreatedUtc := none
    DateCreated := some "2024-05-01T00:00:00Z" }

/-- A job with an absent `Name` whose identifier routes to the (resolved)
surveyors category. -/
def jobNamelessRouted : Job :=
  { ID := some "9123"
    Name := none
    DateCreatedUtc := none
    DateCreated := some "2024-05-01T00:00:00Z" }

/-- A job with an absent `ID`. -/
def jobNoId : Job :=
  { ID := none
    Name := some "Alpha"
    DateCreatedUtc := none
    DateCreated := some "2024-05-01T00:00:00Z" }

/-- A well-formed job routed to the project category. -/
def job2001 : Job :=
  { ID := some "2001"
    Name := some "Alpha"
    DateCreatedUtc := none
    DateCreated := some "2024-05-01T00:00:00Z" }

/-- A namespace-root listing in which only two of the three required name
fragments occur. -/
def entriesPartial : List RootEntry :=
  [{ name := "ISA PROJECT JOBS (2-5)", path_lower := some "/isa project jobs (2-5)",
     id := "id:1" },
   { name := "ISA SURVEY PTY LTD (7-8)", path_lower := some "/isa survey pty ltd (7-8)",
     id := "id:2" }]

/-- The same listing with the third required folder present as well. -/
def entriesFull : List RootEntry :=
  entriesPartial ++
    [{ name := "ISA SURVEYORS PTY LTD (6 or 9)",
       path_lower := some "/isa surveyors pty ltd (6 or 9)", id := "id:3" }]

/-- A cycle environment whose destination mapping is whatever startup
resolution produced on the partial listing, with a batch holding one item
routed to a category that was found. -/
def envPartial : CycleEnv :=
  { envOk [job2001] 10 20 with folderIds := resolveFolderIds entriesPartial }

/-- The credential and exchange of a cycle whose token refresh is rejected. -/
def envCredFail : CycleEnv :=
  { envOk [] 10 20 with
      cred := { access_token := none, refresh_token := none, expires_in := none,
                obtained_at := none }
      exchange := .error () }

/-- A credential sitting exactly at the safety-margin boundary:
`expiresAt − 60s = 0 + 100·1000 − 60000 = 40000`. -/
def credBoundary : Credential :=
  { access_token := some "tokB"
    refresh_token := some "r"
    expires_in := some 100
    obtained_at := some 0 }

/-- A token-endpoint success body used at the boundary. -/
def dataBoundary : RefreshData :=
  { access_token := "newTok", refresh_token := "r2", expires_in := 100 }

/-! ## Helper lemmas shared by the claim theorems -/

/-- A cycle that reports `completed lo hi` used the window
`[lastChecked, tFetch)` and advanced the checkpoint to `tEnd`. -/
theorem runCycle_completed_shape (st : CycleState) (env : CycleEnv)
    (st2 : CycleState) (lo hi : Int)
    (h : runCycle st env = (st2, .completed lo hi)) :
    lo = st.lastChecked ∧ hi = env.tFetch ∧ st2 = { lastChecked := env.tEnd } := by
  unfold runCycle at h
  repeat' split at h
  all_goals injection h with h1 h2
  all_goals try injection h2 with h3 h4
  all_goals simp_all

/-- A cycle that ends in the `catch` leaves the checkpoint unchanged. -/
theorem runCycle_fatal_keeps (st : CycleState) (env : CycleEnv)
    (st2 : CycleState) (h : runCycle st env = (st2, .fatal)) : st2 = st := by
  unfold runCycle at h
  repeat' split at h
  all_goals injection h with h1 h2
  all_goals try injection h2
  all_goals simp_all

/-- An item with an absent `ID` throws at `jobNo.split('_')`. -/
theorem processItem_id_none (fids : FolderIds) (pd : String → Option Int)
    (processed : List String) (job : Job) (o : ItemOracle) (h : job.ID = none) :
    processItem fids pd processed job o = (.thrown, processed) := by
  simp [processItem, h]

/-- A batch containing an item with an absent `ID` makes the `for` loop
throw, wherever the loop was when it reached a throwing item. -/
theorem processJobs_throws_of_missing_id (fids : FolderIds)
    (pd : String → Option Int) (oracleAt : Nat → ItemOracle) :
    ∀ (jobs : List Job) (i : Nat) (processed : List String),
      (∃ j ∈ jobs, j.ID = none) →
      processJobs fids pd oracleAt jobs i processed = false := by
  intro jobs
  induction jobs with
  | nil => intro i p h; simp at h
  | cons j rest ih =>
    intro i p h
    obtain ⟨j0, hj0, hid⟩ := h
    simp only [List.mem_cons] at hj0
    rcases hj0 with rfl | hmem
    · simp [processJobs, processItem_id_none fids pd p j0 (oracleAt i) hid]
    · unfold processJobs
      by_cases hthr : (processItem fids pd p j (oracleAt i)).1 = ItemResult.thrown
      · simp [hthr]
      · simp only [hthr, if_false]
        exact ih (i + 1) (processItem fids pd p j (oracleAt i)).2 ⟨j0, hmem, hid⟩

/-! ## Claim theorems -/

/-- C3 (counterexample): the claim's literal step (2) — strip every
parenthesized substring including its parentheses, and nothing else —
disagrees with the source, whose regex `\s*\([^)]*\)` also consumes the
whitespace run immediately before the group: on identifier "9" and title
"a (x)b" the source produces "9 - AB" while the claim's steps produce
"9 - A B". -/
theorem formatName_paren_ws_counterexample :
    formatNameSpec "9" "a (x)b" ≠ formatJobName "9" "a (x)b" ∧
    formatJobName "9" "a (x)b" = "9 - AB" ∧
    formatNameSpec "9" "a (x)b" = "9 - A B" := by decide

/-- C3 (amended): `formatJobName` is the deterministic pipeline — entity
decoding, stripping of every parenthesized group together with the
whitespace run immediately preceding it, underscore replacement,
uppercasing, whitespace collapsing and trimming — prefixed by the raw,
untransformed identifier and " - "; a title that normalizes to the empty
string yields exactly `identifier ++ " - "`; and the claim's worked
example evaluates as stated. -/
theorem formatJobName_amended :
    (∀ jobNo jobName, formatJobName jobNo jobName =
      jobNo ++ " - " ++ normalizeTitle jobName) ∧
    (∀ jobNo jobName, normalizeTitle jobName = "" →
      formatJobName jobNo jobName = jobNo ++ " - ") ∧
    formatJobName "9000549_1" "Smith &amp; Sons (Lot 4) Survey_Job" =
      "9000549_1 - SMITH & SONS SURVEY - JOB" ∧
    normalizeTitle "(Lot 4)" = "" := by
  refine ⟨fun a b => rfl, fun a b h => ?_, by decide, by decide⟩
  simp [formatJobName, h]

/-- C3 (witness): the amended theorem applied to a title that strips to
nothing. -/
theorem formatJobName_amended_witness :
    formatJobName "7007" " (temp) " = "7007 - " :=
  formatJobName_amended.2.1 "7007" " (temp) " (by decide)

/-- C4: the provisioner fallback chain.  A copy failing with a conflict
summary returns materialized without any create attempt; a copy failing
with a not-found summary, or any other copy error, performs exactly one
create attempt at `parentPath/folderName`; a create succeeding with
metadata, or failing with a conflict summary, is materialized; any other
create error is a terminal failure. -/
theorem provision_fallback_chain :
    (∀ pp fn (e : ApiError) cr, summaryHas e "path/conflict" = true →
      createFolderFromTemplate pp fn (.error e) cr =
        (some { name := fn, path_display := pp ++ "/" ++ fn }, none)) ∧
    (∀ pp fn (e : ApiError) cr, summaryHas e "path/conflict" = false →
      createFolderFromTemplate pp fn (.error e) cr =
        (createFolder pp fn cr, some (pp ++ "/" ++ fn))) ∧
    (∀ pp fn (r : ApiResp) m, r.metadata = some m →
      createFolder pp fn (.ok r) = some m) ∧
    (∀ pp fn (e : ApiError), summaryHas e "path/conflict/folder" = true →
      createFolder pp fn (.error e) =
        some { name := fn, path_display := pp ++ "/" ++ fn }) ∧
    (∀ pp fn (e : ApiError), summaryHas e "path/conflict/folder" = false →
      createFolder pp fn (.error e) = none) := by
  refine ⟨?_, ?_, ?_, ?_, ?_⟩ <;> intros <;>
    simp_all [createFolderFromTemplate, createFolder]

/-- C4 (witness): the chain evaluated on one conflict copy, one not-found
copy followed by a conflicting create, and one create failing with an
unrelated error. -/
theorem provision_fallback_chain_witness :
    createFolderFromTemplate "/p" "J" (.error { summary := some "path/conflict" })
        (.ok { metadata := none }) =
      (some { name := "J", path_display := "/p/J" }, none) ∧
    createFolderFromTemplate "/p" "J" (.error { summary := some "path/not_found" })
        (.error { summary := some "path/conflict/folder" }) =
      (some { name := "J", path_display := "/p/J" }, some "/p/J") ∧
    createFolder "/p" "J" (.error { summary := some "too_many_write_operations" }) =
      none := by
  refine ⟨?_, ?_, ?_⟩
  · exact provision_fallback_chain.1 "/p" "J" _ _ (by decide)
  · have h2 := provision_fallback_chain.2.1 "/p" "J"
      { summary := some "path/not_found" }
      (.error { summary := some "path/conflict/folder" }) (by decide)
    have h4 := provision_fallback_chain.2.2.2.1 "/p" "J"
      { summary := some "path/conflict/folder" } (by decide)
    rw [h2, h4]; decide
  · exact provision_fallback_chain.2.2.2.2 "/p" "J" _ (by decide)

/-- C5: base-identifier duplicate screening.  An identifier without an
underscore is never sibling-checked; with an underscore, the item is
skipped exactly when some sibling folder matches the case-insensitive
pattern "base identifier, optional whitespace, hyphen"; a listing error
yields no skip; and the claim's two concrete instances behave as stated,
through the per-item flow, including that "9000550_1" proceeds all the way
to provisioning. -/
theorem suffix_screen_correct :
    (∀ jobNo sib, jobNo.toList.contains '_' = false →
      suffixScreen jobNo sib = none) ∧
    (∀ jobNo entries, jobNo.toList.contains '_' = true →
      (screenSkips jobNo (.ok entries) = true ↔
        ∃ e ∈ entries, e.isFolder = true ∧
          basePatternTest (baseOf jobNo) e.name = true)) ∧
    (∀ jobNo, jobNo.toList.contains '_' = true →
      screenSkips jobNo (.error ()) = false) ∧
    (processItem fidsAll (fun _ => some 0) []
        { ID := some "9000549_1", Name := some "Alpha", DateCreatedUtc := none,
          DateCreated := some "2024-05-01T00:00:00Z" }
        { oracleFresh with
            siblings := .ok [{ isFolder := true, name := "9000549 - ALPHA" }] }).1 =
      .suffixSkip ∧
    (processItem fidsAll (fun _ => some 0) []
        { ID := some "9000550_1", Name := some "Alpha", DateCreatedUtc := none,
          DateCreated := some "2024-05-01T00:00:00Z" }
        { oracleFresh with
            siblings := .ok [{ isFolder := true, name := "9000549 - ALPHA" }] }).1 =
      .provisioned true := by
  refine ⟨?_, ?_, ?_, by decide, by decide⟩
  · intro jobNo sib h
    have h2 : '_' ∉ jobNo.data := by simpa using h
    simp [suffixScreen, h2]
  · intro jobNo entries h
    have h2 : '_' ∈ jobNo.data := by simpa using h
    have hred : screenSkips jobNo (.ok entries) =
        !((entries.filter
            (fun e => e.isFolder && basePatternTest (baseOf jobNo) e.name)).map
          (fun e => e.name)).isEmpty := by
      simp [screenSkips, suffixScreen, checkExistingJobFolders, h2]
    rw [hred]
    constructor
    · intro htrue
      have hne : entries.filter
          (fun e => e.isFolder && basePatternTest (baseOf jobNo) e.name) ≠ [] := by
        intro hnil
        rw [hnil] at htrue
        simp at htrue
      obtain ⟨a, ha⟩ := List.exists_mem_of_ne_nil _ hne
      have hmf := List.mem_filter.mp ha
      exact ⟨a, hmf.1, by simpa [Bool.and_eq_true] using hmf.2⟩
    · rintro ⟨a, hmem, hfold, htest⟩
      have ha : a ∈ entries.filter
          (fun e => e.isFolder && basePatternTest (baseOf jobNo) e.name) :=
        List.mem_filter.mpr ⟨hmem, by simp [hfold, htest]⟩
      cases hf : entries.filter
          (fun e => e.isFolder && basePatternTest (baseOf jobNo) e.name) with
      | nil => rw [hf] at ha; cases ha
      | cons b l => simp
  · intro jobNo h
    have h2 : '_' ∈ jobNo.data := by simpa using h
    simp [screenSkips, suffixScreen, checkExistingJobFolders, h2]

/-- C5 (witness): the screening parts applied at the claim's concrete
inputs. -/
theorem suffix_screen_correct_witness :
    suffixScreen "9000549" (.ok []) = none ∧
    screenSkips "9000549_1"
        (.ok [{ isFolder := true, name := "9000549 - ALPHA" }]) = true ∧
    screenSkips "9000550_1" (.error ()) = false := by
  refine ⟨?_, ?_, ?_⟩
  · exact suffix_screen_correct.1 "9000549" (.ok []) (by decide)
  · exact (suffix_screen_correct.2.1 "9000549_1"
      [{ isFolder := true, name := "9000549 - ALPHA" }] (by decide)).mpr
      ⟨{ isFolder := true, name := "9000549 - ALPHA" }, by simp, rfl, by decide⟩
  · exact suffix_screen_correct.2.2.1 "9000550_1" (by decide)

/-- C6: `selectDestinationFolder` is total: an empty identifier is
unrouted; a first character among 2–5, 7–8, 6–9 selects the corresponding
category's (possibly unresolved, hence absent) path; every other first
character is unrouted. -/
theorem selectDestination_total (fids : FolderIds) (jobNo : String) :
    (jobNo.toList = [] → selectDestinationFolder fids jobNo = none) ∧
    (∀ c rest, jobNo.toList = c :: rest →
      ((c = '2' ∨ c = '3' ∨ c = '4' ∨ c = '5') →
        selectDestinationFolder fids jobNo = fids.projectJobs) ∧
      ((c = '7' ∨ c = '8') →
        selectDestinationFolder fids jobNo = fids.surveyPty) ∧
      ((c = '6' ∨ c = '9') →
        selectDestinationFolder fids jobNo = fids.surveyors) ∧
      (c ∉ (['2', '3', '4', '5', '6', '7', '8', '9'] : List Char) →
        selectDestinationFolder fids jobNo = none)) := by
  refine ⟨fun h => ?_, fun c rest h => ?_⟩
  · have hd : jobNo.data = [] := h
    simp [selectDestinationFolder, hd]
  · have hd : jobNo.data = c :: rest := h
    have hsel : selectDestinationFolder fids jobNo =
        (if c = '2' ∨ c = '3' ∨ c = '4' ∨ c = '5' then fids.projectJobs
         else if c = '7' ∨ c = '8' then fids.surveyPty
         else if c = '6' ∨ c = '9' then fids.surveyors
         else none) := by
      simp [selectDestinationFolder, hd]
    refine ⟨fun hc => ?_, fun hc => ?_, fun hc => ?_, fun hc => ?_⟩
    · rw [hsel, if_pos hc]
    · rcases hc with rfl | rfl <;> simp [hsel]
    · rcases hc with rfl | rfl <;> simp [hsel]
    · have h2 := hc
      simp only [List.mem_cons, List.not_mem_nil, or_false, not_or] at h2
      obtain ⟨n2, n3, n4, n5, n6, n7, n8, n9⟩ := h2
      rw [hsel, if_neg (by tauto), if_neg (by tauto), if_neg (by tauto)]

/-- C6 (witness): the routing theorem applied across the lead-character
classes, including a lead whose category is unresolved. -/
theorem selectDestination_total_witness :
    selectDestinationFolder fidsAll "23" = some "/isa project jobs (2-5)" ∧
    selectDestinationFolder { fidsAll with projectJobs := none } "23" = none ∧
    selectDestinationFolder fidsAll "71" = some "/isa survey pty ltd (7-8)" ∧
    selectDestinationFolder fidsAll "90" = some "/isa surveyors pty ltd (6 or 9)" ∧
    selectDestinationFolder fidsAll "10" = none ∧
    selectDestinationFolder fidsAll "" = none := by
  refine ⟨?_, ?_, ?_, ?_, ?_, ?_⟩
  · exact ((selectDestination_total fidsAll "23").2 '2' ['3'] rfl).1 (by decide)
  · exact ((selectDestination_total { fidsAll with projectJobs := none } "23").2
      '2' ['3'] rfl).1 (by decide)
  · exact ((selectDestination_total fidsAll "71").2 '7' ['1'] rfl).2.1 (by decide)
  · exact ((selectDestination_total fidsAll "90").2 '9' ['0'] rfl).2.2.1 (by decide)
  · exact ((selectDestination_total fidsAll "10").2 '1' ['0'] rfl).2.2.2 (by decide)
  · exact (selectDestination_total fidsAll "").1 rfl

/-- C7: the exact-existence check fails open — it returns `true` exactly
when the metadata lookup succeeds, returns `false` on not_found and on
every other error, and an item is never skipped by the existence screen
when the lookup errored. -/
theorem exists_fails_open :
    (∀ res : Except PathErr Unit, checkFolderExists res = true ↔ res = .ok ()) ∧
    (∀ e : PathErr, checkFolderExists (.error e) = false) ∧
    (∀ fids pd processed (job : Job) (o : ItemOracle) e,
      o.existsRes = .error e →
      (processItem fids pd processed job o).1 ≠ .existsSkip) := by
  refine ⟨?_, ?_, ?_⟩
  · intro res
    cases res with
    | ok u => cases u; simp [checkFolderExists]
    | error e => simp [checkFolderExists]
  · intro e; simp [checkFolderExists]
  · intro fids pd processed job o e ho
    have hfe : checkFolderExists o.existsRes = false := by
      rw [ho]; simp [checkFolderExists]
    cases hid : job.ID with
    | none => simp [processItem, hid]
    | some jobNo =>
      by_cases hc : jobNo ∈ processed
      · simp [processItem, hid, hc]
      · cases hd : dateOk pd job with
        | false => simp [processItem, hid, hc, hd]
        | true =>
          cases hdest : selectDestinationFolder fids jobNo with
          | none => simp [processItem, hid, hc, hd, hdest]
          | some dest =>
            cases hnm : job.Name with
            | none => simp [processItem, hid, hc, hd, hdest, hnm]
            | some nm =>
              cases hs : screenSkips jobNo o.siblings <;>
                simp [processItem, hid, hc, hd, hdest, hnm, hfe, hs]

/-- C7 (witness): the fail-open theorem applied to a successful lookup and
to an errored lookup inside the per-item flow. -/
theorem exists_fails_open_witness :
    checkFolderExists (.ok ()) = true ∧
    (processItem fidsAll (fun _ => some 0) [] job2001 oracleFresh).1 ≠
      .existsSkip := by
  refine ⟨?_, ?_⟩
  · exact (exists_fails_open.1 (.ok ())).mpr rfl
  · exact exists_fails_open.2.2 fidsAll (fun _ => some 0) [] job2001 oracleFresh
      { tag := some "path", pathTag := some "not_found" } rfl

/-- C9 (counterexample): at exactly `now = expiresAt − 60s` — here
`40000 = 0 + 100·1000 − 60000` — the claim prescribes an exchange, but the
source's strict comparison `tokenExpiry < now` is false, so the cached
token is returned and no exchange result is ever used. -/
theorem token_boundary_counterexample :
    (40000 : Int) = 0 + 100 * 1000 - 60000 ∧
    getValidAccessToken 40000 credBoundary (.ok dataBoundary) = .cached "tokB" ∧
    getValidAccessToken 40000 credBoundary (.ok dataBoundary) ≠
      .refreshed dataBoundary.access_token (writeTokens 40000 dataBoundary) := by
  decide

/-- C9 (amended): the refresh trigger is strict — the token endpoint is
used exactly when the access token is absent (or empty) or
`now > expiresAt − 60s`; at `now = expiresAt − 60s` and earlier the cached
token is returned unchanged; on refresh the persisted credential carries
the new pair and a freshly stamped acquisition time. -/
theorem token_refresh_amended :
    (∀ now c, needsRefreshB now c = true ↔
      (c.access_token = none ∨ c.access_token = some "" ∨
        (∃ o e, c.obtained_at = some o ∧ c.expires_in = some e ∧
          o + e * 1000 - 60000 < now))) ∧
    (∀ now c tok exch, c.access_token = some tok →
      needsRefreshB now c = false →
      getValidAccessToken now c exch = .cached tok) ∧
    (∀ now c d, needsRefreshB now c = true →
      getValidAccessToken now c (.ok d) =
        .refreshed d.access_token
          { access_token := some d.access_token
            refresh_token := some d.refresh_token
            expires_in := some d.expires_in
            obtained_at := some now }) ∧
    (∀ now c, needsRefreshB now c = true →
      getValidAccessToken now c (.error ()) = .authError) := by
  refine ⟨?_, ?_, ?_, ?_⟩
  · intro now c
    cases hat : c.access_token with
    | none => simp [needsRefreshB, hat]
    | some tok =>
      by_cases htok : tok = ""
      · subst htok; simp [needsRefreshB, hat]
      · cases ho : c.obtained_at with
        | none => simp [needsRefreshB, tokenExpiryOf, hat, htok, ho]
        | some o =>
          cases he : c.expires_in with
          | none => simp [needsRefreshB, tokenExpiryOf, hat, htok, ho, he]
          | some e => simp [needsRefreshB, tokenExpiryOf, hat, htok, ho, he]
  · intro now c tok exch hat hn
    simp [getValidAccessToken, hn, hat]
  · intro now c d hn
    simp [getValidAccessToken, hn, writeTokens]
  · intro now c hn
    simp [getValidAccessToken, hn]

/-- C9 (witness): the amended theorem applied to a fresh credential (no
exchange used) and to an expired one (exchange used and persisted with the
new stamp, or surfaced as the auth failure). -/
theorem token_refresh_amended_witness :
    getValidAccessToken 0 credFresh (.error ()) = .cached "tok" ∧
    getValidAccessToken 4000000 credFresh (.ok dataBoundary) =
      .refreshed "newTok"
        { access_token := some "newTok", refresh_token := some "r2",
          expires_in := some 100, obtained_at := some 4000000 } ∧
    getValidAccessToken 4000000 credFresh (.error ()) = .authError := by
  refine ⟨?_, ?_, ?_⟩
  · exact token_refresh_amended.2.1 0 credFresh "tok" (.error ()) rfl (by decide)
  · exact token_refresh_amended.2.2.1 4000000 credFresh dataBoundary (by decide)
  · exact token_refresh_amended.2.2.2 4000000 credFresh (by decide)

/-- C2 (counterexample): a successful cycle with fetch-window upper bound
`now = 10` and end-of-processing time `20` advances the checkpoint to `20`,
not to the captured `now = 10`; the following successful cycle's window
starts at `20`, so the two windows `[0,10)` and `[20,30)` are not
contiguous — `(10, 20)` is covered by neither. -/
theorem checkpoint_gap_counterexample :
    runCycle { lastChecked := 0 } (envOk [] 10 20) =
      ({ lastChecked := 20 }, .completed 0 10) ∧
    runCycle { lastChecked := 20 } (envOk [] 30 40) =
      ({ lastChecked := 40 }, .completed 20 30) ∧
    (20 : Int) ≠ 10 := by decide

/-- C2 (amended): a completed cycle used the window
`[lastChecked, tFetch)` and advanced the checkpoint to the end-of-cycle
clock reading `tEnd`; over any run of consecutive completed cycles with
advancing clocks the checkpoint strictly increases; and the next completed
cycle's window starts at the previous cycle's `tEnd`, which is at or after
the previous window's upper bound (a gap is possible, an overlap is not). -/
theorem checkpoint_advance_amended :
    (∀ st env st2 lo hi, runCycle st env = (st2, .completed lo hi) →
      lo = st.lastChecked ∧ hi = env.tFetch ∧ st2 = { lastChecked := env.tEnd }) ∧
    (∀ st envs, AllCompleted st envs → Clocked st envs → envs ≠ [] →
      st.lastChecked < (runCycles st envs).lastChecked) ∧
    (∀ st env1 env2 st2 st3 lo1 hi1 lo2 hi2,
      runCycle st env1 = (st2, .completed lo1 hi1) →
      runCycle st2 env2 = (st3, .completed lo2 hi2) →
      env1.tFetch ≤ env1.tEnd →
      lo2 = env1.tEnd ∧ hi1 ≤ lo2) := by
  refine ⟨runCycle_completed_shape, ?_, ?_⟩
  · intro st envs h1 h2 h3
    induction envs generalizing st with
    | nil => exact absurd rfl h3
    | cons e es ih =>
      obtain ⟨⟨lo, hi, hout⟩, hrest⟩ := h1
      obtain ⟨hlt, hle, hclk⟩ := h2
      have hpair : runCycle st e = ((runCycle st e).1, .completed lo hi) := by
        rw [← hout]
      have hshape := runCycle_completed_shape st e (runCycle st e).1 lo hi hpair
      have hst1 : (runCycle st e).1 = { lastChecked := e.tEnd } := hshape.2.2
      have hstep : st.lastChecked < e.tEnd := lt_of_lt_of_le hlt hle
      show st.lastChecked < (runCycles (runCycle st e).1 es).lastChecked
      cases es with
      | nil => simpa [runCycles, hst1] using hstep
      | cons e2 es2 =>
        have htail := ih (runCycle st e).1 hrest (by rw [hst1]; exact hclk)
          (by simp)
        calc st.lastChecked < e.tEnd := hstep
          _ = (runCycle st e).1.lastChecked := by rw [hst1]
          _ < (runCycles (runCycle st e).1 (e2 :: es2)).lastChecked := htail
  · intro st env1 env2 st2 st3 lo1 hi1 lo2 hi2 hr1 hr2 hcl
    have hs1 := runCycle_completed_shape st env1 st2 lo1 hi1 hr1
    have hs2 := runCycle_completed_shape st2 env2 st3 lo2 hi2 hr2
    have hlo2 : lo2 = env1.tEnd := by rw [hs2.1, hs1.2.2]
    exact ⟨hlo2, by rw [hs1.2.1, hlo2]; exact hcl⟩

/-- C2 (witness): the amended theorem applied to two consecutive concrete
successful cycles. -/
theorem checkpoint_advance_amended_witness :
    (0 : Int) <
      (runCycles { lastChecked := 0 } [envOk [] 10 20, envOk [] 30 40]).lastChecked := by
  refine checkpoint_advance_amended.2.1 { lastChecked := 0 }
    [envOk [] 10 20, envOk [] 30 40] ?_ ?_ (by simp)
  · exact ⟨⟨0, 10, by decide⟩, ⟨20, 30, by decide⟩, trivial⟩
  · exact ⟨by decide, by decide, by decide, by decide, trivial⟩

/-- C8: a cycle whose credential refresh is rejected, or whose fetch call
fails, ends in the cycle-level `catch` with the checkpoint unchanged (no
partial advance is possible on any `catch`-ending path), and a later
completed cycle's window starts at that same unchanged checkpoint; the
cycle function always returns (the process does not terminate). -/
theorem cycle_failure_stable :
    (∀ st env, precondPass env = true →
      getValidAccessToken env.tCred env.cred env.exchange = .authError →
      runCycle st env = (st, .fatal)) ∧
    (∀ st env e, precondPass env = true → env.fetchRes = .error e →
      runCycle st env = (st, .fatal)) ∧
    (∀ st env st2, runCycle st env = (st2, .fatal) → st2 = st) ∧
    (∀ st env st2 env2 st3 lo hi, runCycle st env = (st2, .fatal) →
      runCycle st2 env2 = (st3, .completed lo hi) → lo = st.lastChecked) := by
  have hpre : ∀ env : CycleEnv, precondPass env = true →
      ∃ fids m, env.folderIds = some fids ∧ folderIdsEmpty fids = false ∧
        env.teamMemberId = some m := by
    intro env hp
    unfold precondPass at hp
    cases hfo : env.folderIds with
    | none => rw [hfo] at hp; simp at hp
    | some fids =>
      rw [hfo] at hp
      cases hm : env.teamMemberId with
      | none => rw [hm] at hp; simp at hp
      | some m =>
        refine ⟨fids, m, rfl, ?_, rfl⟩
        simp at hp
        simpa using hp.1
  refine ⟨?_, ?_, ?_, ?_⟩
  · intro st env hp htok
    obtain ⟨fids, m, hfo, hne, hm⟩ := hpre env hp
    simp [runCycle, hfo, hne, hm, htok]
  · intro st env e hp hfe
    obtain ⟨fids, m, hfo, hne, hm⟩ := hpre env hp
    cases htok : getValidAccessToken env.tCred env.cred env.exchange <;>
      simp [runCycle, hfo, hne, hm, htok, hfe]
  · exact runCycle_fatal_keeps
  · intro st env st2 env2 st3 lo hi h1 h2
    have hkeep := runCycle_fatal_keeps st env st2 h1
    have hshape := runCycle_completed_shape st2 env2 st3 lo hi h2
    rw [hshape.1, hkeep]

/-- C8 (witness): the stability theorem applied to a concrete failing
fetch and a concrete rejected refresh. -/
theorem cycle_failure_stable_witness :
    runCycle { lastChecked := 3 } { envOk [] 10 20 with fetchRes := .error () } =
      ({ lastChecked := 3 }, .fatal) ∧
    runCycle { lastChecked := 3 } envCredFail = ({ lastChecked := 3 }, .fatal) := by
  refine ⟨?_, ?_⟩
  · exact cycle_failure_stable.2.1 { lastChecked := 3 }
      { envOk [] 10 20 with fetchRes := .error () } () (by decide) rfl
  · exact cycle_failure_stable.1 { lastChecked := 3 } envCredFail (by decide)
      (by decide)

/-- C10 (counterexample): a batch consisting of one item whose `Name` is
absent but whose identifier leads with '1' (routed nowhere) completes the
cycle without any throw — the item is skipped at routing before
`formatJobName` runs — and the checkpoint advances, contrary to the
claim's "for every batch containing a Name-less item the per-item code
throws and lastChecked is left unchanged". -/
theorem malformed_name_unrouted_counterexample :
    jobNameless.Name = none ∧
    runCycle { lastChecked := 5 } (envOk [jobNameless] 10 20) =
      ({ lastChecked := 20 }, .completed 5 10) ∧
    (5 : Int) ≠ 20 := by decide

/-- C10 (amended): an item with an absent `ID` always throws (at
`split('_')`), so any reachable batch containing one aborts the cycle with
the checkpoint unchanged; an item with an absent `Name` throws (at
`formatJobName`) exactly when it survives de-duplication, has a parseable
creation date and routes to a resolved destination — when it routes
nowhere it is skipped harmlessly and the cycle goes on. -/
theorem malformed_item_amended :
    (∀ st env jobs, precondPass env = true →
      getValidAccessToken env.tCred env.cred env.exchange ≠ .authError →
      env.fetchRes = .ok jobs → (∃ j ∈ jobs, j.ID = none) →
      runCycle st env = (st, .fatal)) ∧
    (∀ fids pd processed (job : Job) (o : ItemOracle) jobNo,
      job.ID = some jobNo → job.Name = none →
      jobNo ∉ processed → dateOk pd job = true →
      (selectDestinationFolder fids jobNo).isSome →
      (processItem fids pd processed job o).1 = .thrown) ∧
    (∀ fids pd processed (job : Job) (o : ItemOracle) jobNo,
      job.ID = some jobNo → job.Name = none →
      jobNo ∉ processed → dateOk pd job = true →
      selectDestinationFolder fids jobNo = none →
      (processItem fids pd processed job o).1 = .routeSkip) := by
  refine ⟨?_, ?_, ?_⟩
  · intro st env jobs hp htok hfe hex
    have hpre : ∃ fids m, env.folderIds = some fids ∧
        folderIdsEmpty fids = false ∧ env.teamMemberId = some m := by
      unfold precondPass at hp
      cases hfo : env.folderIds with
      | none => rw [hfo] at hp; simp at hp
      | some fids =>
        rw [hfo] at hp
        cases hm : env.teamMemberId with
        | none => rw [hm] at hp; simp at hp
        | some m =>
          refine ⟨fids, m, rfl, ?_, rfl⟩
          simp at hp
          simpa using hp.1
    obtain ⟨fids, m, hfo, hne, hm⟩ := hpre
    have hthrow := processJobs_throws_of_missing_id fids env.parseDate
      env.oracleAt jobs 0 [] hex
    cases hv : getValidAccessToken env.tCred env.cred env.exchange with
    | authError => exact absurd hv htok
    | cached tok => simp [runCycle, hfo, hne, hm, hv, hfe, hthrow]
    | refreshed tok saved => simp [runCycle, hfo, hne, hm, hv, hfe, hthrow]
  · intro fids pd processed job o jobNo hid hnm hmem hdate hdest
    obtain ⟨p, hp⟩ := Option.isSome_iff_exists.mp hdest
    simp [processItem, hid, hmem, hdate, hp, hnm]
  · intro fids pd processed job o jobNo hid hnm hmem hdate hdest
    simp [processItem, hid, hmem, hdate, hdest]

/-- C10 (witness): the amended theorem applied to a batch with an ID-less
item and to a Name-less item routed to a resolved category. -/
theorem malformed_item_amended_witness :
    runCycle { lastChecked := 7 } (envOk [jobNoId] 10 20) =
      ({ lastChecked := 7 }, .fatal) ∧
    (processItem fidsAll (fun _ => some 0) [] jobNamelessRouted oracleFresh).1 =
      .thrown := by
  refine ⟨?_, ?_⟩
  · exact malformed_item_amended.1 { lastChecked := 7 } (envOk [jobNoId] 10 20)
      [jobNoId] (by decide) (by decide) rfl ⟨jobNoId, by simp, rfl⟩
  · exact malformed_item_amended.2.1 fidsAll (fun _ => some 0) []
      jobNamelessRouted oracleFresh "9123" rfl rfl (by simp) (by decide) (by decide)

/-- C1 (counterexample): on a successful root listing containing two of
the three required fragments, the claim prescribes a mapping holding
exactly the two found categories, with items routed to them still
processed; the source instead installs no mapping at all, and a cycle with
an item routed to one of the found categories is skipped whole at the
precondition check. -/
theorem resolve_partial_counterexample :
    entriesPartial.any (hasFragment "ISA PROJECT JOBS") = true ∧
    entriesPartial.any (hasFragment "ISA SURVEY PTY LTD") = true ∧
    entriesPartial.any (hasFragment "ISA SURVEYORS PTY LTD") = false ∧
    resolveFolderIds entriesPartial = none ∧
    runCycle { lastChecked := 0 } envPartial =
      ({ lastChecked := 0 }, .skippedNoFolders) := by decide

/-- C1 (amended): destination resolution is all-or-nothing — when the
three fragments are all found the mapping holds the paths of the three
first matching entries, and when any fragment is missing no mapping is
installed at all, so every polling cycle exits at its precondition check
and every item (whatever its routing) is skipped until restart. -/
theorem resolve_all_or_nothing :
    (∀ entries a b c,
      entries.find? (hasFragment "ISA PROJECT JOBS") = some a →
      entries.find? (hasFragment "ISA SURVEY PTY LTD") = some b →
      entries.find? (hasFragment "ISA SURVEYORS PTY LTD") = some c →
      resolveFolderIds entries = some
        { projectJobs := some (entryPath a), surveyPty := some (entryPath b),
          surveyors := some (entryPath c) }) ∧
    (∀ entries,
      (entries.find? (hasFragment "ISA PROJECT JOBS") = none ∨
       entries.find? (hasFragment "ISA SURVEY PTY LTD") = none ∨
       entries.find? (hasFragment "ISA SURVEYORS PTY LTD") = none) →
      resolveFolderIds entries = none) ∧
    (∀ st env, env.folderIds = none →
      runCycle st env = (st, .skippedNoFolders)) := by
  refine ⟨?_, ?_, ?_⟩
  · intro entries a b c h1 h2 h3
    simp [resolveFolderIds, h1, h2, h3]
  · intro entries hmiss
    unfold resolveFolderIds
    rcases hmiss with h | h | h
    · rw [h]
    · rw [h]
      cases entries.find? (hasFragment "ISA PROJECT JOBS") <;> rfl
    · rw [h]
      cases entries.find? (hasFragment "ISA PROJECT JOBS") <;>
        first
        | rfl
        | (cases entries.find? (hasFragment "ISA SURVEY PTY LTD") <;> rfl)
  · intro st env h
    simp [runCycle, h]

/-- C1 (witness): the amended theorem applied to the full listing, the
partial listing, and a cycle with no installed mapping. -/
theorem resolve_all_or_nothing_witness :
    resolveFolderIds entriesFull = some
      { projectJobs := some "/isa project jobs (2-5)"
        surveyPty := some "/isa survey pty ltd (7-8)"
        surveyors := some "/isa surveyors pty ltd (6 or 9)" } ∧
    resolveFolderIds entriesPartial = none ∧
    runCycle { lastChecked := 9 } { envOk [] 10 20 with folderIds := none } =
      ({ lastChecked := 9 }, .skippedNoFolders) := by
  refine ⟨?_, ?_, ?_⟩
  · have h := resolve_all_or_nothing.1 entriesFull
      { name := "ISA PROJECT JOBS (2-5)", path_lower := some "/isa project jobs (2-5)",
        id := "id:1" }
      { name := "ISA SURVEY PTY LTD (7-8)",
        path_lower := some "/isa survey pty ltd (7-8)", id := "id:2" }
      { name := "ISA SURVEYORS PTY LTD (6 or 9)",
        path_lower := some "/isa surveyors pty ltd (6 or 9)", id := "id:3" }
      (by decide) (by decide) (by decide)
    rw [h]; decide
  · exact resolve_all_or_nothing.2.1 entriesPartial (Or.inr (Or.inr (by decide)))
  · exact resolve_all_or_nothing.2.2 { lastChecked := 9 }
      { envOk [] 10 20 with folderIds := none } rfl

end WfxDropbox
